import Mathlib

/-!
# Verification of the x402 payment authorization and subscription contracts

Shallow embedding of `src/contracts/src/EIP712Payment.sol` and of the
`SubscriptionManager` contract, over which the spec's claims are settled.

Modelling conventions:
* `address` and `bytes32` are `Nat`; `address(0)` is `0`.
* `uint256` arithmetic is Solidity 0.8 checked arithmetic: it never wraps
  (it reverts on overflow), so it is modelled on `Nat`.
* `keccak256` is a parameter `k : List Nat → Nat` over the word-level
  content that the contract feeds it (`abi.encode` of static types is a
  sequence of 32-byte words; strings are hashed as their character codes).
  Collision resistance is taken as injectivity of `k` where a claim needs it.
* `ecrecover` (`ECDSA.recover`) is a parameter `recover : Nat → Nat → Nat`
  from (digest, signature) to the recovered address.
* A `require(cond, msg)` failure is a revert: the call returns an error and
  the pre-state is kept unchanged.
-/

namespace X402

/-- Character codes of a Solidity string literal, the content `keccak256`
hashes for `keccak256(bytes(s))`. -/
def strBytes (s : String) : List Nat := s.data.map Char.toNat

/-! ## EIP712Payment -/

/-- The EIP-712 type string behind `PAYMENT_AUTHORIZATION_TYPEHASH`. -/
def paymentTypeString : String :=
  "PaymentAuthorization(address payer,address token,uint256 amount,uint256 deadline,uint256 nonce,string action)"

/-- The EIP-712 type string behind `SUBSCRIPTION_AUTHORIZATION_TYPEHASH`. -/
def subscriptionTypeString : String :=
  "SubscriptionAuthorization(bytes32 planId,address subscriber,uint256 amount,uint256 deadline,uint256 nonce,bool autoRenew)"

/-- The EIP-712 type string behind `RECURRING_PAYMENT_TYPEHASH`. -/
def recurringTypeString : String :=
  "RecurringPayment(bytes32 planId,address subscriber,uint256 amount,uint256 paymentNumber,uint256 deadline,uint256 nonce)"

/-- Constant `PAYMENT_AUTHORIZATION_TYPEHASH = keccak256("PaymentAuthorization(...)")`. -/
def PAYMENT_AUTHORIZATION_TYPEHASH (k : List Nat → Nat) : Nat :=
  k (strBytes paymentTypeString)

/-- Constant `SUBSCRIPTION_AUTHORIZATION_TYPEHASH = keccak256("SubscriptionAuthorization(...)")`. -/
def SUBSCRIPTION_AUTHORIZATION_TYPEHASH (k : List Nat → Nat) : Nat :=
  k (strBytes subscriptionTypeString)

/-- Constant `RECURRING_PAYMENT_TYPEHASH = keccak256("RecurringPayment(...)")`. -/
def RECURRING_PAYMENT_TYPEHASH (k : List Nat → Nat) : Nat :=
  k (strBytes recurringTypeString)

/-- Function `_hashTypedDataV4`: `keccak256(0x19 ‖ 0x01 ‖ domainSeparator ‖ structHash)`,
at word granularity. `ds` is the deployment's `_domainSeparatorV4()`. -/
def hashTypedDataV4 (k : List Nat → Nat) (ds structHash : Nat) : Nat :=
  k [0x19, 0x01, ds, structHash]

/-- Struct hash `keccak256(abi.encode(PAYMENT_AUTHORIZATION_TYPEHASH, payer, token, amount,
deadline, nonce, keccak256(bytes(action))))` — line 59-61 of EIP712Payment.sol. -/
def paymentStructHash (k : List Nat → Nat)
    (payer token amount deadline nonce : Nat) (action : String) : Nat :=
  k [PAYMENT_AUTHORIZATION_TYPEHASH k, payer, token, amount, deadline, nonce,
     k (strBytes action)]

/-- Struct hash `keccak256(abi.encode(SUBSCRIPTION_AUTHORIZATION_TYPEHASH, planId, subscriber,
amount, deadline, nonce, autoRenew))` — line 92-94 of EIP712Payment.sol. -/
def subscriptionStructHash (k : List Nat → Nat)
    (planId subscriber amount deadline nonce : Nat) (autoRenew : Bool) : Nat :=
  k [SUBSCRIPTION_AUTHORIZATION_TYPEHASH k, planId, subscriber, amount, deadline,
     nonce, cond autoRenew 1 0]

/-- Struct hash `keccak256(abi.encode(RECURRING_PAYMENT_TYPEHASH, planId, subscriber, amount,
paymentNumber, deadline, nonce))` — line 125-127 of EIP712Payment.sol. -/
def recurringStructHash (k : List Nat → Nat)
    (planId subscriber amount paymentNumber deadline nonce : Nat) : Nat :=
  k [RECURRING_PAYMENT_TYPEHASH k, planId, subscriber, amount, paymentNumber,
     deadline, nonce]

/-- Reasons the verification functions revert. -/
inductive VerifyError
  /-- Failure of `require(block.timestamp <= deadline, "Signature expired")`. -/
  | DeadlineExpired
  /-- Failure of `require(nonce == nonces[payer], "Invalid nonce")`. -/
  | NonceMismatch
deriving DecidableEq, Repr

/-- Storage of `EIP712Payment`: the per-address nonce mapping
(`mapping(address => uint256) public nonces`, zero-initialised). -/
structure AuthState where
  nonces : Nat → Nat

/-- The freshly deployed contract: every nonce is zero. -/
def AuthState.init : AuthState := ⟨fun _ => 0⟩

/-- Function `verifyPaymentAuthorization` (EIP712Payment.sol lines 47-67).  A `view`
function: it touches no storage.  `now` is `block.timestamp`, `ds` the
domain separator. -/
def verifyPaymentAuthorization (k : List Nat → Nat) (recover : Nat → Nat → Nat)
    (ds : Nat) (st : AuthState) (now payer token amount deadline nonce : Nat)
    (action : String) (signature : Nat) : Except VerifyError Bool :=
  if ¬ now ≤ deadline then .error .DeadlineExpired
  else if ¬ nonce = st.nonces payer then .error .NonceMismatch
  else
    .ok (decide (recover
      (hashTypedDataV4 k ds
        (paymentStructHash k payer token amount deadline nonce action))
      signature = payer))

/-- Function `verifySubscriptionAuthorization` (EIP712Payment.sol lines 80-100). -/
def verifySubscriptionAuthorization (k : List Nat → Nat) (recover : Nat → Nat → Nat)
    (ds : Nat) (st : AuthState) (now planId subscriber amount deadline nonce : Nat)
    (autoRenew : Bool) (signature : Nat) : Except VerifyError Bool :=
  if ¬ now ≤ deadline then .error .DeadlineExpired
  else if ¬ nonce = st.nonces subscriber then .error .NonceMismatch
  else
    .ok (decide (recover
      (hashTypedDataV4 k ds
        (subscriptionStructHash k planId subscriber amount deadline nonce autoRenew))
      signature = subscriber))

/-- Function `verifyRecurringPayment` (EIP712Payment.sol lines 113-133). -/
def verifyRecurringPayment (k : List Nat → Nat) (recover : Nat → Nat → Nat)
    (ds : Nat) (st : AuthState) (now planId subscriber amount paymentNumber deadline nonce : Nat)
    (signature : Nat) : Except VerifyError Bool :=
  if ¬ now ≤ deadline then .error .DeadlineExpired
  else if ¬ nonce = st.nonces subscriber then .error .NonceMismatch
  else
    .ok (decide (recover
      (hashTypedDataV4 k ds
        (recurringStructHash k planId subscriber amount paymentNumber deadline nonce))
      signature = subscriber))

/-- Function `_incrementNonce` (EIP712Payment.sol lines 139-142): `nonces[user]++`. -/
def incrementNonce (user : Nat) (st : AuthState) : AuthState :=
  ⟨fun a => if a = user then st.nonces a + 1 else st.nonces a⟩

/-- Function `getNonce` (EIP712Payment.sol lines 157-159). -/
def getNonce (st : AuthState) (user : Nat) : Nat := st.nonces user

/-- The admission flow the spec prescribes around `verifyPaymentAuthorization`:
the caller performs the nonce increment only after a successful verification
has admitted the state change; a failed verification leaves the contract
storage untouched (`verifyPaymentAuthorization` is a `view` function). -/
def admitPayment (k : List Nat → Nat) (recover : Nat → Nat → Nat) (ds : Nat)
    (st : AuthState) (now payer token amount deadline nonce : Nat)
    (action : String) (signature : Nat) : Except VerifyError Bool × AuthState :=
  match verifyPaymentAuthorization k recover ds st now payer token amount
      deadline nonce action signature with
  | .ok true => (.ok true, incrementNonce payer st)
  | r => (r, st)

/-- The state-mutating operations of `EIP712Payment`: `_incrementNonce` is the
only function that writes storage (the three verifiers are `view`). -/
inductive AuthOp
  | increment (user : Nat)

/-- Effect of one operation on the contract storage. -/
def AuthOp.apply (st : AuthState) : AuthOp → AuthState
  | .increment user => incrementNonce user st

/-- Run a sequence of operations. -/
def runAuth (st : AuthState) (ops : List AuthOp) : AuthState :=
  ops.foldl AuthOp.apply st

/-! ## SubscriptionManager -/

/-- Storage `struct SubscriptionPlan` of SubscriptionManager.sol.  A missing mapping
entry is the all-zero struct (`active = false`). -/
structure SubscriptionPlan where
  token : Nat
  amount : Nat
  interval : Nat
  duration : Nat
  gracePeriod : Nat
  active : Bool
  creator : Nat
  paymentRecipient : Nat
  apiUrl : String
  totalSubscribers : Nat
deriving DecidableEq, Repr

/-- The default (all-zero) plan a Solidity mapping yields for an absent key. -/
def SubscriptionPlan.zero : SubscriptionPlan :=
  ⟨0, 0, 0, 0, 0, false, 0, 0, "", 0⟩

/-- Storage `struct Subscription` of SubscriptionManager.sol. -/
structure Subscription where
  subscriber : Nat
  startTime : Nat
  nextPaymentDue : Nat
  endTime : Nat
  totalPaid : Nat
  missedPayments : Nat
  active : Bool
  autoRenew : Bool
deriving DecidableEq, Repr

/-- The default (all-zero) subscription for an absent key: `subscriber = 0`. -/
def Subscription.zero : Subscription := ⟨0, 0, 0, 0, 0, 0, false, false⟩

/-- Storage of `SubscriptionManager`, plus a ledger of the native-value
transfers the contract has made (`call{value: ...}`), so that claims about
value movement are expressible. -/
structure SMState where
  plans : Nat → SubscriptionPlan
  subscriptions : Nat → Nat → Subscription
  /-- Mapping `nonces` (`mapping(address => uint256) public nonces`) — declared in the contract
  but never written by any of its functions. -/
  nonces : Nat → Nat
  allPlans : List Nat
  planCounter : Nat
  /-- Outgoing `(recipient, amount)` native transfers, newest first. -/
  transfers : List (Nat × Nat)

/-- The freshly deployed contract. -/
def SMState.init : SMState :=
  ⟨fun _ => SubscriptionPlan.zero, fun _ _ => Subscription.zero, fun _ => 0, [], 0, []⟩

/-- Revert reasons of `SubscriptionManager`, named after the spec's error
taxonomy; each constructor notes the `require` string it models. -/
inductive SMError
  /-- Failure of `require(amount > 0, "Amount must be > 0")`. -/
  | ZeroAmount
  /-- Failure of `require(interval > 0, "Interval must be > 0")`. -/
  | ZeroInterval
  /-- Failure of `require(plan.active, "Plan not active")`. -/
  | PlanInactive
  /-- Failure of `require(subscriptions[planId][msg.sender].subscriber == address(0), "Already subscribed")`. -/
  | AlreadySubscribed
  /-- Failure of `require(msg.value >= plan.amount, "Insufficient payment")`. -/
  | InsufficientPayment
deriving DecidableEq, Repr

/-- Plan id `keccak256(abi.encodePacked(msg.sender, planCounter, block.timestamp))`
(SubscriptionManager.sol line 58), at word granularity. -/
def planIdOf (k : List Nat → Nat) (sender counter now : Nat) : Nat :=
  k [sender, counter, now]

/-- Function `createPlan` (SubscriptionManager.sol lines 46-76).  `sender` is
`msg.sender` and `now` is `block.timestamp`.  Returns the new plan id and
the post-state. -/
def createPlan (k : List Nat → Nat) (sender now : Nat)
    (token amount interval duration gracePeriod : Nat) (apiUrl : String)
    (st : SMState) : Except SMError (Nat × SMState) :=
  if ¬ 0 < amount then .error .ZeroAmount
  else if ¬ 0 < interval then .error .ZeroInterval
  else
    let counter := st.planCounter + 1
    let planId := planIdOf k sender counter now
    let plan : SubscriptionPlan :=
      { token := token, amount := amount, interval := interval
        duration := duration, gracePeriod := gracePeriod, active := true
        creator := sender, paymentRecipient := sender, apiUrl := apiUrl
        totalSubscribers := 0 }
    .ok (planId,
      { st with
        plans := fun p => if p = planId then plan else st.plans p
        allPlans := st.allPlans ++ [planId]
        planCounter := counter })

/-- Function `subscribe` (SubscriptionManager.sol lines 78-106).  `sender` is
`msg.sender`, `value` is `msg.value`, `now` is `block.timestamp`.  The
low-level `call{value: plan.amount}` to the plan's `paymentRecipient` is
modelled as succeeding and is recorded on the transfer ledger. -/
def subscribe (sender value now : Nat) (planId : Nat) (autoRenew : Bool)
    (st : SMState) : Except SMError SMState :=
  let plan := st.plans planId
  if ¬ plan.active then .error .PlanInactive
  else if ¬ (st.subscriptions planId sender).subscriber = 0 then
    .error .AlreadySubscribed
  else if plan.token = 0 ∧ value < plan.amount then .error .InsufficientPayment
  else
    let transfers :=
      if plan.token = 0 then (plan.paymentRecipient, plan.amount) :: st.transfers
      else st.transfers
    let startTime := now
    let sub : Subscription :=
      { subscriber := sender, startTime := startTime
        nextPaymentDue := startTime + plan.interval
        endTime := startTime + plan.duration
        totalPaid := plan.amount, missedPayments := 0
        active := true, autoRenew := autoRenew }
    .ok { st with
          subscriptions := fun p a =>
            if p = planId ∧ a = sender then sub else st.subscriptions p a
          plans := fun p =>
            if p = planId then
              { plan with totalSubscribers := plan.totalSubscribers + 1 }
            else st.plans p
          transfers := transfers }

/-- Function `getSubscription` (SubscriptionManager.sol lines 112-114). -/
def getSubscription (st : SMState) (planId subscriber : Nat) : Subscription :=
  st.subscriptions planId subscriber

/-- Function `getPlan` (SubscriptionManager.sol lines 108-110). -/
def getPlan (st : SMState) (planId : Nat) : SubscriptionPlan :=
  st.plans planId

/-- The external state-mutating operations of `SubscriptionManager`
(`createPlan` and `subscribe`; everything else is a view). -/
inductive SMOp
  | createPlan (sender now token amount interval duration gracePeriod : Nat)
      (apiUrl : String)
  | subscribe (sender value now planId : Nat) (autoRenew : Bool)

/-- Effect of one operation: a revert leaves the state unchanged. -/
def SMOp.apply (k : List Nat → Nat) (st : SMState) : SMOp → SMState
  | .createPlan sender now token amount interval duration gracePeriod apiUrl =>
      match X402.createPlan k sender now token amount interval duration gracePeriod apiUrl st with
      | .ok (_, st') => st'
      | .error _ => st
  | .subscribe sender value now planId autoRenew =>
      match X402.subscribe sender value now planId autoRenew st with
      | .ok st' => st'
      | .error _ => st

/-- Run a sequence of operations against the contract. -/
def runSM (k : List Nat → Nat) (st : SMState) (ops : List SMOp) : SMState :=
  ops.foldl (SMOp.apply k) st

/-! ## Recurring charge processing (modelled from the spec) -/

/-- Failure reasons of `processPayment`, from the spec's error taxonomy. -/
inductive PPError
  | SubscriptionNotFound
  | SubscriptionExpired
  | PaymentNotDue
  | GracePeriodExceeded
deriving DecidableEq, Repr

/-- Modelled from the spec: `processPayment` is missing from the code under
`src/` (only an interface mention of it exists); §4.2 defines it: it requires
an active Subscription whose `nextPaymentDue` has arrived and is within the
(inclusive, §4.2 tie-break) grace window; on success it advances
`nextPaymentDue += interval` from the scheduled due date (not from `now`),
records the charge, and resets the missed-payment streak.  Past grace it
fails with `GracePeriodExceeded` and increments `missedPayments`; past
`endTime` the subscription is `Expired` and accepts no further charges (the
auto-renew path is a separate `subscribe`-equivalent renewal, not part of
this call).  Returns the call outcome and the post-state subscription. -/
def processPayment (plan : SubscriptionPlan) (now : Nat) (sub : Subscription) :
    Except PPError Unit × Subscription :=
  if ¬ sub.active then (.error .SubscriptionNotFound, sub)
  else if sub.endTime < now then
    (.error .SubscriptionExpired, { sub with active := false })
  else if now < sub.nextPaymentDue then (.error .PaymentNotDue, sub)
  else if sub.nextPaymentDue + plan.gracePeriod < now then
    (.error .GracePeriodExceeded,
      { sub with missedPayments := sub.missedPayments + 1 })
  else
    (.ok (),
      { sub with nextPaymentDue := sub.nextPaymentDue + plan.interval
                 totalPaid := sub.totalPaid + plan.amount
                 missedPayments := 0 })

/-- Fold a sequence of `processPayment` calls, at the given wall-clock
times, over a subscription. -/
def processRun (plan : SubscriptionPlan) (sub : Subscription) :
    List Nat → Subscription
  | [] => sub
  | t :: ts => processRun plan (processPayment plan t sub).2 ts

/-- All the `processPayment` calls in the sequence succeed. -/
def processAllOk (plan : SubscriptionPlan) (sub : Subscription) :
    List Nat → Bool
  | [] => true
  | t :: ts =>
      match processPayment plan t sub with
      | (.ok _, sub') => processAllOk plan sub' ts
      | (.error _, _) => false

/-! ## Helper definitions for concrete instantiations -/

/-- Whether a call completed without reverting. -/
def exceptOk {ε α : Type} : Except ε α → Bool
  | .ok _ => true
  | .error _ => false

/-- Little-endian base-65536 digits, with an explicit structural fuel
argument so that the kernel can evaluate it (`fuel ≥ n` suffices). -/
def limbsAux : Nat → Nat → List Nat
  | _, 0 => []
  | 0, _ + 1 => []
  | fuel + 1, n + 1 => ((n + 1) % 65536) :: limbsAux fuel ((n + 1) / 65536)

/-- Little-endian base-65536 digits of `n`. -/
def limbsOf (n : Nat) : List Nat := limbsAux n n

/-- Value of a little-endian base-65536 digit list. -/
def ofLimbs : List Nat → Nat
  | [] => 0
  | d :: ds => d + 65536 * ofLimbs ds

/-- Base-65536 digits of a word followed by a separator digit `65536`: a
prefix-free code of one word. -/
def encNat (n : Nat) : List Nat := limbsOf n ++ [65536]

/-- Concatenation of the codes of a word list. -/
def codeList : List Nat → List Nat
  | [] => []
  | n :: ns => encNat n ++ codeList ns

/-- An injective, computable code of word lists: the concrete stand-in for
`keccak256` wherever collision resistance (modelled as injectivity) is
needed at a concrete input. -/
def kG (l : List Nat) : Nat := Nat.ofDigits 65537 (codeList l)

/-- A trivial hash for instantiations that need no collision resistance. -/
def kZero : List Nat → Nat := fun _ => 0

/-- A constant `ecrecover` whose recovered signer is address `5`. -/
def recoverFive : Nat → Nat → Nat := fun _ _ => 5

/-- Concrete keccak instantiation for the cross-type-replay witness. -/
def kW : List Nat → Nat := kG

/-- The typed-data digest of a concrete payment authorization
(payer `5`, all other fields zero, action `"a"`) under `kW`. -/
def DW : Nat := hashTypedDataV4 kW 0 (paymentStructHash kW 5 0 0 0 0 "a")

/-- A concrete `ecrecover` that recovers the signer `5` exactly on the
digest `DW`: it swaps `DW` and `5` and fixes every other digest. -/
def recoverW : Nat → Nat → Nat := fun d _ =>
  if d = DW then 5 else if d = 5 then DW else d

/-- A concrete active plan: native token, amount 5, interval 10,
duration 100, grace 3, creator/recipient 1, one subscriber. -/
def planA : SubscriptionPlan := ⟨0, 5, 10, 100, 3, true, 1, 1, "u", 1⟩

/-- A concrete subscription of subscriber 7 to `planA`, started at time 0. -/
def subA : Subscription := ⟨7, 0, 10, 100, 5, 0, true, true⟩

/-- A concrete contract state: `planA` is stored under plan id 42 and
subscriber 7 already holds `subA` on it. -/
def stDup : SMState :=
  { plans := fun p => if p = 42 then planA else SubscriptionPlan.zero
    subscriptions := fun p a => if p = 42 ∧ a = 7 then subA else Subscription.zero
    nonces := fun _ => 0
    allPlans := [42], planCounter := 1, transfers := [] }

/-- A concrete contract state: `planA` is stored under plan id 42 with no
subscribers yet. -/
def stNat : SMState :=
  { plans := fun p => if p = 42 then planA else SubscriptionPlan.zero
    subscriptions := fun _ _ => Subscription.zero
    nonces := fun _ => 0
    allPlans := [42], planCounter := 1, transfers := [] }

/-- A concrete non-native (ERC-20-style) plan: token address 9. -/
def planB : SubscriptionPlan := ⟨9, 5, 10, 100, 3, true, 1, 1, "u", 0⟩

/-- A concrete contract state: the non-native `planB` is stored under plan
id 42 with no subscribers yet. -/
def stErc : SMState :=
  { plans := fun p => if p = 42 then planB else SubscriptionPlan.zero
    subscriptions := fun _ _ => Subscription.zero
    nonces := fun _ => 0
    allPlans := [42], planCounter := 1, transfers := [] }

/-- The state after subscriber 7 subscribes to plan 42 in `stNat`. -/
def stSub1 : SMState :=
  match subscribe 7 5 100 42 true stNat with
  | .ok st => st
  | .error _ => stNat

/-- Every stored plan id decomposes as `planIdOf k s i t` for a sequence
number `i` between 1 and the current `planCounter`. -/
def planIdsBounded (k : List Nat → Nat) (st : SMState) : Prop :=
  ∀ pid ∈ st.allPlans, ∃ s i t, 1 ≤ i ∧ i ≤ st.planCounter ∧ pid = planIdOf k s i t

/-! ## Helper lemmas -/

theorem limbsAux_lt_base : ∀ fuel n, ∀ d ∈ limbsAux fuel n, d < 65536 := by
  intro fuel
  induction fuel with
  | zero =>
      intro n d hd
      cases n <;> simp [limbsAux] at hd
  | succ fuel ih =>
      intro n d hd
      cases n with
      | zero => simp [limbsAux] at hd
      | succ m =>
          simp only [limbsAux, List.mem_cons] at hd
          rcases hd with h | h
          · exact h ▸ Nat.mod_lt _ (by norm_num)
          · exact ih _ d h

theorem limbsOf_lt_base (n : Nat) : ∀ d ∈ limbsOf n, d < 65536 :=
  limbsAux_lt_base n n

theorem ofLimbs_limbsAux : ∀ fuel n, n ≤ fuel → ofLimbs (limbsAux fuel n) = n := by
  intro fuel
  induction fuel with
  | zero =>
      intro n h
      have : n = 0 := Nat.le_zero.mp h
      subst this
      simp [limbsAux, ofLimbs]
  | succ fuel ih =>
      intro n h
      cases n with
      | zero => simp [limbsAux, ofLimbs]
      | succ m =>
          have hdiv : (m + 1) / 65536 ≤ fuel := by
            have := Nat.div_lt_self (Nat.succ_pos m) (by norm_num : 1 < 65536)
            omega
          simp only [limbsAux, ofLimbs]
          rw [ih _ hdiv]
          omega

theorem ofLimbs_limbsOf (n : Nat) : ofLimbs (limbsOf n) = n :=
  ofLimbs_limbsAux n n (le_refl n)

theorem limbsOf_injective : Function.Injective limbsOf := by
  intro a b h
  rw [← ofLimbs_limbsOf a, ← ofLimbs_limbsOf b, h]

theorem sep_append_inj (s : Nat) : ∀ (a1 a2 r1 r2 : List Nat),
    (∀ d ∈ a1, d ≠ s) → (∀ d ∈ a2, d ≠ s) →
    a1 ++ s :: r1 = a2 ++ s :: r2 → a1 = a2 ∧ r1 = r2 := by
  intro a1
  induction a1 with
  | nil =>
      intro a2 r1 r2 _ h2 h
      cases a2 with
      | nil => simpa using h
      | cons y ys =>
          simp only [List.nil_append, List.cons_append, List.cons.injEq] at h
          exact absurd h.1.symm (h2 y (List.mem_cons_self y ys))
  | cons x xs ih =>
      intro a2 r1 r2 h1 h2 h
      cases a2 with
      | nil =>
          simp only [List.nil_append, List.cons_append, List.cons.injEq] at h
          exact absurd h.1 (h1 x (List.mem_cons_self x xs))
      | cons y ys =>
          simp only [List.cons_append, List.cons.injEq] at h
          obtain ⟨hxy, ht⟩ := h
          obtain ⟨ha, hr⟩ := ih ys r1 r2
            (fun d hd => h1 d (List.mem_cons_of_mem x hd))
            (fun d hd => h2 d (List.mem_cons_of_mem y hd)) ht
          exact ⟨by rw [hxy, ha], hr⟩

theorem codeList_cons_eq (n : Nat) (ns : List Nat) :
    codeList (n :: ns) = limbsOf n ++ 65536 :: codeList ns := by
  simp [codeList, encNat]

theorem codeList_injective : Function.Injective codeList := by
  intro l1 l2 h
  induction l1 generalizing l2 with
  | nil =>
      cases l2 with
      | nil => rfl
      | cons y ys =>
          rw [codeList_cons_eq] at h
          have hlen := congrArg List.length h
          simp only [codeList, List.length_nil, List.length_cons,
            List.length_append] at hlen
          exact absurd hlen (by omega)
  | cons x xs ih =>
      cases l2 with
      | nil =>
          rw [codeList_cons_eq] at h
          have hlen := congrArg List.length h
          simp only [codeList, List.length_nil, List.length_cons,
            List.length_append] at hlen
          exact absurd hlen (by omega)
      | cons y ys =>
          rw [codeList_cons_eq, codeList_cons_eq] at h
          obtain ⟨ha, hr⟩ := sep_append_inj 65536 _ _ _ _
            (fun d hd => Nat.ne_of_lt (limbsOf_lt_base x d hd))
            (fun d hd => Nat.ne_of_lt (limbsOf_lt_base y d hd)) h
          rw [limbsOf_injective ha, ih hr]

theorem codeList_lt_base (l : List Nat) : ∀ d ∈ codeList l, d < 65537 := by
  induction l with
  | nil => simp [codeList]
  | cons x xs ih =>
      intro d hd
      rw [codeList_cons_eq] at hd
      simp only [List.mem_append, List.mem_cons] at hd
      rcases hd with h | h | h
      · exact lt_trans (limbsOf_lt_base x d h) (by norm_num)
      · omega
      · exact ih d h

theorem codeList_shape (l : List Nat) :
    codeList l = [] ∨ ∃ c, codeList l = c ++ [65536] := by
  induction l with
  | nil => exact Or.inl rfl
  | cons x xs ih =>
      right
      rcases ih with h | ⟨c, hc⟩
      · exact ⟨limbsOf x, by rw [codeList_cons_eq, h]⟩
      · exact ⟨limbsOf x ++ 65536 :: c, by rw [codeList_cons_eq, hc]; simp⟩

theorem codeList_getLast_ne_zero (l : List Nat) :
    ∀ h : codeList l ≠ [], (codeList l).getLast h ≠ 0 := by
  rcases codeList_shape l with h0 | ⟨c, hc⟩
  · intro h
    exact absurd h0 h
  · rw [hc]
    intro h
    rw [List.getLast_append' c [65536] (by simp)]
    simp

theorem kG_injective : Function.Injective kG := by
  intro l1 l2 h
  apply codeList_injective
  have h1 := Nat.digits_ofDigits 65537 (by norm_num) (codeList l1)
    (codeList_lt_base l1) (codeList_getLast_ne_zero l1)
  have h2 := Nat.digits_ofDigits 65537 (by norm_num) (codeList l2)
    (codeList_lt_base l2) (codeList_getLast_ne_zero l2)
  unfold kG at h
  rw [← h1, ← h2, h]

theorem getNonce_incrementNonce_self (st : AuthState) (u : Nat) :
    getNonce (incrementNonce u st) u = getNonce st u + 1 := by
  simp [getNonce, incrementNonce]

theorem getNonce_le_apply (st : AuthState) (op : AuthOp) (u : Nat) :
    getNonce st u ≤ getNonce (op.apply st) u := by
  cases op with
  | increment v =>
      simp only [AuthOp.apply, getNonce, incrementNonce]
      split <;> omega

/-- Nonces never decrease under any sequence of contract operations. -/
theorem getNonce_le_runAuth (st : AuthState) (ops : List AuthOp) (u : Nat) :
    getNonce st u ≤ getNonce (runAuth st ops) u := by
  induction ops generalizing st with
  | nil => simp [runAuth]
  | cons op ops ih =>
      calc getNonce st u ≤ getNonce (op.apply st) u := getNonce_le_apply st op u
        _ ≤ getNonce (runAuth (op.apply st) ops) u := ih (op.apply st)
        _ = getNonce (runAuth st (op :: ops)) u := by simp [runAuth, List.foldl]

/-! ## Claims -/

/-- C2: with an unexpired deadline and the nonce matching the payer's stored
nonce, `verifyPaymentAuthorization` returns `true` iff the signer recovered
from the domain-separated typed-data digest over
`(payer, token, amount, deadline, nonce, action)` and the supplied signature
equals the claimed payer. -/
theorem C2_verify_iff_recovered_signer_is_payer
    (k : List Nat → Nat) (recover : Nat → Nat → Nat) (ds : Nat) (st : AuthState)
    (now payer token amount deadline nonce : Nat) (action : String) (signature : Nat)
    (hdl : now ≤ deadline) (hn : nonce = st.nonces payer) :
    verifyPaymentAuthorization k recover ds st now payer token amount deadline
        nonce action signature = .ok true ↔
      recover (hashTypedDataV4 k ds
          (paymentStructHash k payer token amount deadline nonce action))
        signature = payer := by
  simp [verifyPaymentAuthorization, hdl, hn]

theorem C2_witness :
    verifyPaymentAuthorization kZero recoverFive 0 AuthState.init 0 5 0 0 0 0
        "subscribe" 0 = .ok true ↔
      recoverFive (hashTypedDataV4 kZero 0
          (paymentStructHash kZero 5 0 0 0 0 "subscribe")) 0 = 5 :=
  C2_verify_iff_recovered_signer_is_payer kZero recoverFive 0 AuthState.init
    0 5 0 0 0 0 "subscribe" 0 (by decide) rfl

/-- C3: a verification whose deadline is strictly earlier than the current
time fails with `DeadlineExpired` even on an otherwise-valid signature, and
the payer's stored nonce is unchanged by the failed call. -/
theorem C3_expired_deadline_fails_and_keeps_nonce
    (k : List Nat → Nat) (recover : Nat → Nat → Nat) (ds : Nat) (st : AuthState)
    (now payer token amount deadline nonce : Nat) (action : String) (signature : Nat)
    (hdl : deadline < now) :
    admitPayment k recover ds st now payer token amount deadline nonce action
        signature = (.error .DeadlineExpired, st) ∧
    getNonce (admitPayment k recover ds st now payer token amount deadline
        nonce action signature).2 payer = getNonce st payer := by
  have h : verifyPaymentAuthorization k recover ds st now payer token amount
      deadline nonce action signature = .error .DeadlineExpired := by
    simp [verifyPaymentAuthorization, Nat.not_le.mpr hdl]
  simp [admitPayment, h]

theorem C3_witness :
    admitPayment kZero recoverFive 0 AuthState.init 1 5 0 0 0 0 "subscribe" 0
        = (.error .DeadlineExpired, AuthState.init) ∧
    getNonce (admitPayment kZero recoverFive 0 AuthState.init 1 5 0 0 0 0
        "subscribe" 0).2 5 = getNonce AuthState.init 5 :=
  C3_expired_deadline_fails_and_keeps_nonce kZero recoverFive 0 AuthState.init
    1 5 0 0 0 0 "subscribe" 0 (by decide)

/-- C1: after one successful payment-authorization verification, followed by
the nonce increment that admits it, a second verification presenting the
same nonce fails with `NonceMismatch`, across any further sequence of nonce
operations (the stored per-payer nonce never decreases). -/
theorem C1_nonce_verifies_at_most_once
    (k : List Nat → Nat) (recover : Nat → Nat → Nat) (ds : Nat) (st : AuthState)
    (now payer token amount deadline nonce : Nat) (action : String) (signature : Nat)
    (hsucc : verifyPaymentAuthorization k recover ds st now payer token amount
        deadline nonce action signature = .ok true)
    (ops : List AuthOp)
    (now2 token2 amount2 deadline2 : Nat) (action2 : String) (signature2 : Nat)
    (hdl2 : now2 ≤ deadline2) :
    verifyPaymentAuthorization k recover ds (runAuth (incrementNonce payer st) ops)
        now2 payer token2 amount2 deadline2 nonce action2 signature2
      = .error .NonceMismatch := by
  have hn : nonce = st.nonces payer := by
    by_cases h1 : now ≤ deadline
    · by_cases h2 : nonce = st.nonces payer
      · exact h2
      · simp [verifyPaymentAuthorization, h1, h2] at hsucc
    · simp [verifyPaymentAuthorization, h1] at hsucc
  have hlt : nonce < (runAuth (incrementNonce payer st) ops).nonces payer := by
    have h1 := getNonce_le_runAuth (incrementNonce payer st) ops payer
    have h2 := getNonce_incrementNonce_self st payer
    simp only [getNonce] at h1 h2
    omega
  have hne : nonce ≠ (runAuth (incrementNonce payer st) ops).nonces payer :=
    Nat.ne_of_lt hlt
  simp [verifyPaymentAuthorization, hdl2, hne]

theorem C1_witness :
    verifyPaymentAuthorization kZero recoverFive 0
        (runAuth (incrementNonce 5 AuthState.init) [.increment 9]) 0 5 0 0 0 0
        "subscribe" 0 = .error .NonceMismatch :=
  C1_nonce_verifies_at_most_once kZero recoverFive 0 AuthState.init 0 5 0 0 0 0
    "subscribe" 0 rfl [.increment 9] 0 0 0 0 "subscribe" 0 (by decide)

set_option maxRecDepth 100000 in
theorem five_lt_DW : 5 < DW := by decide

theorem recoverW_DW (s : Nat) : recoverW DW s = 5 := by
  unfold recoverW
  exact if_pos rfl

theorem recoverW_inj (s : Nat) :
    ∀ d d', recoverW d s = recoverW d' s → d = d' := by
  intro d d' h
  have h5 := five_lt_DW
  unfold recoverW at h
  split_ifs at h <;> omega

set_option maxRecDepth 100000 in
theorem verifyW_payment_ok :
    verifyPaymentAuthorization kW recoverW 0 AuthState.init 0 5 0 0 0 0 "a" 0
      = .ok true := rfl

/-- C4: a signature that verifies for the payment-authorization digest fails
verification against the subscription-authorization and recurring-payment
digests over identical field values, because each action class tags its
struct hash with a distinct type hash. -/
theorem C4_cross_action_replay_fails
    (k : List Nat → Nat) (recover : Nat → Nat → Nat) (ds : Nat) (st : AuthState)
    (hk : Function.Injective k)
    (now payer token amount deadline nonce : Nat) (action : String) (signature : Nat)
    (hrec : ∀ d d', recover d signature = recover d' signature → d = d')
    (hsucc : verifyPaymentAuthorization k recover ds st now payer token amount
        deadline nonce action signature = .ok true)
    (planId paymentNumber : Nat) (autoRenew : Bool) :
    verifySubscriptionAuthorization k recover ds st now planId payer amount
        deadline nonce autoRenew signature = .ok false ∧
    verifyRecurringPayment k recover ds st now planId payer amount paymentNumber
        deadline nonce signature = .ok false := by
  by_cases h1 : now ≤ deadline
  · by_cases h2 : nonce = st.nonces payer
    · have hrecov : recover (hashTypedDataV4 k ds
          (paymentStructHash k payer token amount deadline nonce action))
            signature = payer := by
        simpa [verifyPaymentAuthorization, h1, h2] using hsucc
      have hth1 : SUBSCRIPTION_AUTHORIZATION_TYPEHASH k ≠
          PAYMENT_AUTHORIZATION_TYPEHASH k := by
        intro h
        exact absurd (hk h) (by decide)
      have hth2 : RECURRING_PAYMENT_TYPEHASH k ≠
          PAYMENT_AUTHORIZATION_TYPEHASH k := by
        intro h
        exact absurd (hk h) (by decide)
      have hsh1 : subscriptionStructHash k planId payer amount deadline nonce
          autoRenew ≠ paymentStructHash k payer token amount deadline nonce action := by
        intro h
        have hl := hk h
        simp only [List.cons.injEq] at hl
        exact hth1 hl.1
      have hsh2 : recurringStructHash k planId payer amount paymentNumber
          deadline nonce ≠ paymentStructHash k payer token amount deadline nonce action := by
        intro h
        have hl := hk h
        simp only [List.cons.injEq] at hl
        exact hth2 hl.1
      have hd1 : hashTypedDataV4 k ds (subscriptionStructHash k planId payer
          amount deadline nonce autoRenew) ≠ hashTypedDataV4 k ds
          (paymentStructHash k payer token amount deadline nonce action) := by
        intro h
        have hl := hk h
        simp only [List.cons.injEq] at hl
        exact hsh1 hl.2.2.2.1
      have hd2 : hashTypedDataV4 k ds (recurringStructHash k planId payer
          amount paymentNumber deadline nonce) ≠ hashTypedDataV4 k ds
          (paymentStructHash k payer token amount deadline nonce action) := by
        intro h
        have hl := hk h
        simp only [List.cons.injEq] at hl
        exact hsh2 hl.2.2.2.1
      have hr1 : recover (hashTypedDataV4 k ds (subscriptionStructHash k planId
          payer amount deadline nonce autoRenew)) signature ≠ payer := by
        intro h
        exact hd1 (hrec _ _ (h.trans hrecov.symm))
      have hr2 : recover (hashTypedDataV4 k ds (recurringStructHash k planId
          payer amount paymentNumber deadline nonce)) signature ≠ payer := by
        intro h
        exact hd2 (hrec _ _ (h.trans hrecov.symm))
      constructor
      · simp only [verifySubscriptionAuthorization]
        rw [if_neg (not_not_intro h1), if_neg (not_not_intro h2)]
        simp [hr1]
      · simp only [verifyRecurringPayment]
        rw [if_neg (not_not_intro h1), if_neg (not_not_intro h2)]
        simp [hr2]
    · simp [verifyPaymentAuthorization, h1, h2] at hsucc
  · simp [verifyPaymentAuthorization, h1] at hsucc

theorem C4_witness :
    verifySubscriptionAuthorization kW recoverW 0 AuthState.init 0 0 5 0 0 0
        false 0 = .ok false ∧
    verifyRecurringPayment kW recoverW 0 AuthState.init 0 0 5 0 0 0 0 0
      = .ok false :=
  C4_cross_action_replay_fails kW recoverW 0 AuthState.init kG_injective
    0 5 0 0 0 0 "a" 0 (recoverW_inj 0) verifyW_payment_ok 0 0 false

/-- C5: `subscribe` succeeds only when the plan is active and no Subscription
is stored for `(planId, sender)`; on success it stores `startTime = now`,
`nextPaymentDue = now + interval`, `endTime = now + duration` and increments
the plan's subscriber counter; a duplicate subscribe on an active plan fails
with `AlreadySubscribed` and leaves the state unchanged. -/
theorem C5_subscribe_spec (sender value now planId : Nat) (autoRenew : Bool)
    (st : SMState) :
    (∀ st', subscribe sender value now planId autoRenew st = .ok st' →
      (st.plans planId).active = true ∧
      (st.subscriptions planId sender).subscriber = 0 ∧
      getSubscription st' planId sender =
        { subscriber := sender, startTime := now
          nextPaymentDue := now + (st.plans planId).interval
          endTime := now + (st.plans planId).duration
          totalPaid := (st.plans planId).amount
          missedPayments := 0
          active := true, autoRenew := autoRenew } ∧
      (getPlan st' planId).totalSubscribers
        = (st.plans planId).totalSubscribers + 1) ∧
    ((st.plans planId).active = true →
      (st.subscriptions planId sender).subscriber ≠ 0 →
      subscribe sender value now planId autoRenew st = .error .AlreadySubscribed ∧
      ∀ k, SMOp.apply k st (.subscribe sender value now planId autoRenew) = st) := by
  constructor
  · intro st' h
    simp only [subscribe] at h
    split_ifs at h with h1 h2 h3 h4 <;>
      first
      | exact Except.noConfusion h
      | (simp only [Except.ok.injEq] at h
         subst h
         exact ⟨h1, h2, by simp [getSubscription], by simp [getPlan]⟩)
  · intro hact hdup
    have herr : subscribe sender value now planId autoRenew st
        = .error .AlreadySubscribed := by
      simp only [subscribe]
      rw [if_neg (not_not_intro hact), if_pos hdup]
    refine ⟨herr, fun k => ?_⟩
    simp only [SMOp.apply, herr]

theorem C5_witness :
    subscribe 7 5 100 42 true stDup = .error .AlreadySubscribed ∧
    SMOp.apply kZero stDup (.subscribe 7 5 100 42 true) = stDup := by
  have h := (C5_subscribe_spec 7 5 100 42 true stDup).2 rfl (by decide)
  exact ⟨h.1, h.2 kZero⟩

/-- C6 counterexample: on the native plan of amount 5 stored in `stNat`, a
subscribe declaring msg.value 6 — an amount that differs from the plan's
amount — is admitted rather than rejected with `InsufficientPayment`. -/
theorem C6_counterexample :
    (6 : Nat) ≠ (stNat.plans 42).amount ∧
    exceptOk (subscribe 7 6 100 42 true stNat) = true := by
  exact ⟨by decide, rfl⟩

/-- C6 (amended): for a native-token plan (active, no existing subscription),
a declared payment amount strictly below the plan's amount is rejected with
`InsufficientPayment` — no partial charge is ever admitted — while any
amount greater than or equal to the plan amount is admitted, transferring
and recording exactly the plan's amount. -/
theorem C6_no_partial_charge
    (sender value now planId : Nat) (autoRenew : Bool) (st : SMState)
    (htok : (st.plans planId).token = 0)
    (hact : (st.plans planId).active = true)
    (hnew : (st.subscriptions planId sender).subscriber = 0) :
    (subscribe sender value now planId autoRenew st
        = .error .InsufficientPayment ↔ value < (st.plans planId).amount) ∧
    (∀ st', subscribe sender value now planId autoRenew st = .ok st' →
      (st.plans planId).amount ≤ value ∧
      st'.transfers = ((st.plans planId).paymentRecipient,
        (st.plans planId).amount) :: st.transfers ∧
      (getSubscription st' planId sender).totalPaid
        = (st.plans planId).amount) := by
  constructor
  · by_cases hv : value < (st.plans planId).amount
    · simp only [subscribe]
      rw [if_neg (not_not_intro hact), if_neg (not_not_intro hnew),
        if_pos ⟨htok, hv⟩]
      simp [hv]
    · simp only [subscribe]
      rw [if_neg (not_not_intro hact), if_neg (not_not_intro hnew),
        if_neg (fun hc => hv hc.2)]
      simp [hv]
  · intro st' h
    simp only [subscribe] at h
    rw [if_neg (not_not_intro hact), if_neg (not_not_intro hnew)] at h
    by_cases hv : value < (st.plans planId).amount
    · rw [if_pos ⟨htok, hv⟩] at h
      exact Except.noConfusion h
    · rw [if_neg (fun hc => hv hc.2)] at h
      simp only [Except.ok.injEq] at h
      subst h
      refine ⟨Nat.le_of_not_lt hv, ?_, ?_⟩
      · simp [htok]
      · simp [getSubscription]

theorem C6_witness :
    (subscribe 7 3 100 42 true stNat = .error .InsufficientPayment
      ↔ 3 < (stNat.plans 42).amount) ∧
    (∀ st', subscribe 7 3 100 42 true stNat = .ok st' →
      (stNat.plans 42).amount ≤ 3 ∧
      st'.transfers = ((stNat.plans 42).paymentRecipient,
        (stNat.plans 42).amount) :: stNat.transfers ∧
      (getSubscription st' 42 7).totalPaid = (stNat.plans 42).amount) :=
  C6_no_partial_charge 7 3 100 42 true stNat rfl rfl rfl

theorem createPlan_ok_parts (k : List Nat → Nat)
    (sender now token amount interval duration gracePeriod : Nat)
    (apiUrl : String) (st : SMState) (pid : Nat) (st' : SMState)
    (h : createPlan k sender now token amount interval duration gracePeriod
      apiUrl st = .ok (pid, st')) :
    pid = planIdOf k sender (st.planCounter + 1) now ∧
    st'.planCounter = st.planCounter + 1 ∧
    st'.allPlans = st.allPlans ++ [pid] ∧
    st'.subscriptions = st.subscriptions ∧
    getPlan st' pid =
      { token := token, amount := amount, interval := interval
        duration := duration, gracePeriod := gracePeriod, active := true
        creator := sender, paymentRecipient := sender, apiUrl := apiUrl
        totalSubscribers := 0 } := by
  simp only [createPlan] at h
  split_ifs at h with h1 h2
  all_goals
    first
    | exact Except.noConfusion h
    | (simp only [Except.ok.injEq, Prod.mk.injEq] at h
       obtain ⟨hpid, hst⟩ := h
       subst hst
       subst hpid
       exact ⟨rfl, rfl, rfl, rfl, by simp [getPlan]⟩)

theorem subscribe_ok_parts (sender value now planId : Nat) (autoRenew : Bool)
    (st st' : SMState)
    (h : subscribe sender value now planId autoRenew st = .ok st') :
    (st.subscriptions planId sender).subscriber = 0 ∧
    st'.allPlans = st.allPlans ∧
    st'.planCounter = st.planCounter ∧
    ∀ p a, st'.subscriptions p a =
      if p = planId ∧ a = sender then
        { subscriber := sender, startTime := now
          nextPaymentDue := now + (st.plans planId).interval
          endTime := now + (st.plans planId).duration
          totalPaid := (st.plans planId).amount
          missedPayments := 0
          active := true, autoRenew := autoRenew }
      else st.subscriptions p a := by
  simp only [subscribe] at h
  split_ifs at h with h1 h2 h3 h4 <;>
    first
    | exact Except.noConfusion h
    | (simp only [Except.ok.injEq] at h
       subst h
       exact ⟨h2, rfl, rfl, fun p a => rfl⟩)

theorem planIdsBounded_init (k : List Nat → Nat) :
    planIdsBounded k SMState.init := by
  intro pid hpid
  simp [SMState.init] at hpid

theorem planIdsBounded_apply (k : List Nat → Nat) (st : SMState) (op : SMOp)
    (h : planIdsBounded k st) : planIdsBounded k (SMOp.apply k st op) := by
  cases op with
  | createPlan sender now token amount interval duration gracePeriod apiUrl =>
      simp only [SMOp.apply]
      cases hc : createPlan k sender now token amount interval duration
          gracePeriod apiUrl st with
      | error e => exact h
      | ok pst =>
          obtain ⟨pid, st'⟩ := pst
          change planIdsBounded k st'
          obtain ⟨hpid, hcnt, hall, _, _⟩ :=
            createPlan_ok_parts k sender now token amount interval duration
              gracePeriod apiUrl st pid st' hc
          intro q hq
          rw [hall] at hq
          rcases List.mem_append.mp hq with hq | hq
          · obtain ⟨s, i, t, hi1, hile, heq⟩ := h q hq
            exact ⟨s, i, t, hi1, by omega, heq⟩
          · rcases List.mem_singleton.mp hq with rfl
            exact ⟨sender, st.planCounter + 1, now, by omega, by omega, hpid⟩
  | subscribe sender value now planId autoRenew =>
      simp only [SMOp.apply]
      cases hc : subscribe sender value now planId autoRenew st with
      | error e => exact h
      | ok st' =>
          change planIdsBounded k st'
          obtain ⟨_, hall, hcnt, _⟩ :=
            subscribe_ok_parts sender value now planId autoRenew st st' hc
          intro q hq
          rw [hall] at hq
          obtain ⟨s, i, t, hi1, hile, heq⟩ := h q hq
          exact ⟨s, i, t, hi1, by omega, heq⟩

theorem planIdsBounded_run (k : List Nat → Nat) (ops : List SMOp) :
    planIdsBounded k (runSM k SMState.init ops) := by
  suffices hgen : ∀ (ops : List SMOp) (st : SMState), planIdsBounded k st →
      planIdsBounded k (runSM k st ops) from
    hgen ops SMState.init (planIdsBounded_init k)
  intro ops
  induction ops with
  | nil => intro st h; exact h
  | cons op ops ih =>
      intro st h
      exact ih (SMOp.apply k st op) (planIdsBounded_apply k st op h)

/-- C7: `createPlan` fails whenever `amount = 0` or `interval = 0`; with
positive amount and interval it returns the id derived from the creator,
the incremented sequence counter and the creation time — an id fresh with
respect to every previously stored plan when the hash is injective — and
stores the new plan as active with the caller as creator. -/
theorem C7_createPlan_spec (k : List Nat → Nat) (hk : Function.Injective k)
    (ops : List SMOp) (st : SMState) (hst : st = runSM k SMState.init ops)
    (sender now token amount interval duration gracePeriod : Nat)
    (apiUrl : String) :
    ((amount = 0 ∨ interval = 0) →
      exceptOk (createPlan k sender now token amount interval duration
        gracePeriod apiUrl st) = false) ∧
    (0 < amount → 0 < interval →
      ∃ st', createPlan k sender now token amount interval duration
          gracePeriod apiUrl st
          = .ok (planIdOf k sender (st.planCounter + 1) now, st') ∧
        planIdOf k sender (st.planCounter + 1) now ∉ st.allPlans ∧
        st'.planCounter = st.planCounter + 1 ∧
        getPlan st' (planIdOf k sender (st.planCounter + 1) now) =
          { token := token, amount := amount, interval := interval
            duration := duration, gracePeriod := gracePeriod, active := true
            creator := sender, paymentRecipient := sender, apiUrl := apiUrl
            totalSubscribers := 0 }) := by
  constructor
  · intro h
    simp only [createPlan]
    by_cases ha : 0 < amount
    · rw [if_neg (not_not_intro ha), if_pos (by omega)]
      rfl
    · rw [if_pos ha]
      rfl
  · intro ha hi
    simp only [createPlan]
    rw [if_neg (not_not_intro ha), if_neg (not_not_intro hi)]
    refine ⟨_, rfl, ?_, rfl, by simp [getPlan]⟩
    intro hmem
    have hbounded : planIdsBounded k st := hst ▸ planIdsBounded_run k ops
    obtain ⟨s, i, t, hi1, hile, heq⟩ := hbounded _ hmem
    have hl : [sender, st.planCounter + 1, now] = [s, i, t] := hk heq
    injection hl with hs hl
    injection hl with hcnt hl
    omega

theorem C7_witness :
    ((5 = 0 ∨ 10 = 0) →
      exceptOk (createPlan kG 3 9 0 5 10 100 3 "u" SMState.init) = false) ∧
    (0 < 5 → 0 < 10 →
      ∃ st', createPlan kG 3 9 0 5 10 100 3 "u" SMState.init
          = .ok (planIdOf kG 3 (SMState.init.planCounter + 1) 9, st') ∧
        planIdOf kG 3 (SMState.init.planCounter + 1) 9 ∉ SMState.init.allPlans ∧
        st'.planCounter = SMState.init.planCounter + 1 ∧
        getPlan st' (planIdOf kG 3 (SMState.init.planCounter + 1) 9) =
          { token := 0, amount := 5, interval := 10
            duration := 100, gracePeriod := 3, active := true
            creator := 3, paymentRecipient := 3, apiUrl := "u"
            totalSubscribers := 0 }) :=
  C7_createPlan_spec kG kG_injective [] SMState.init rfl 3 9 0 5 10 100 3 "u"

theorem processPayment_ok_parts (plan : SubscriptionPlan) (now : Nat)
    (sub sub' : Subscription) (u : Unit)
    (h : processPayment plan now sub = (.ok u, sub')) :
    sub' = { sub with nextPaymentDue := sub.nextPaymentDue + plan.interval
                      totalPaid := sub.totalPaid + plan.amount
                      missedPayments := 0 } := by
  simp only [processPayment] at h
  split_ifs at h <;>
    first
    | exact Except.noConfusion (congrArg Prod.fst h)
    | (simp only [Prod.mk.injEq] at h
       exact h.2.symm)

theorem processRun_due (plan : SubscriptionPlan) :
    ∀ (ts : List Nat) (sub : Subscription), processAllOk plan sub ts = true →
      (processRun plan sub ts).nextPaymentDue
        = sub.nextPaymentDue + ts.length * plan.interval ∧
      (processRun plan sub ts).startTime = sub.startTime := by
  intro ts
  induction ts with
  | nil =>
      intro sub _
      simp [processRun]
  | cons t ts ih =>
      intro sub h
      simp only [processAllOk] at h
      rcases hp : processPayment plan t sub with ⟨r, sub'⟩
      rw [hp] at h
      cases r with
      | error e => simp at h
      | ok u =>
          have hsub' := processPayment_ok_parts plan t sub sub' u hp
          simp only at h
          simp only [processRun, hp]
          obtain ⟨hdue, hstart⟩ := ih sub' h
          subst hsub'
          refine ⟨?_, by simpa using hstart⟩
          rw [hdue]
          simp [List.length_cons]
          ring

/-- C8 (amended): starting from a freshly subscribed state
(`nextPaymentDue = startTime + interval`), after `N` successful
`processPayment` calls `nextPaymentDue = startTime + (N + 1) × interval`
exactly, independent of the wall-clock times at which the calls occur,
because each success advances the due date by the interval from the
scheduled date, and the initial charge at subscribe time already scheduled
one interval. -/
theorem C8_schedule_no_drift (plan : SubscriptionPlan) (sub : Subscription)
    (ts : List Nat)
    (hdue : sub.nextPaymentDue = sub.startTime + plan.interval)
    (hok : processAllOk plan sub ts = true) :
    (processRun plan sub ts).nextPaymentDue
      = sub.startTime + (ts.length + 1) * plan.interval := by
  rw [(processRun_due plan ts sub hok).1, hdue]
  ring

/-- C8 counterexample: on the concrete plan with interval 10, a subscription
started at time 0 (due at 10) that is charged successfully once, at exactly
its due date, has `nextPaymentDue = 20 = startTime + 2 × interval`, not
`startTime + 1 × interval` as the claim states for `N = 1`. -/
theorem C8_counterexample :
    processAllOk planA subA [10] = true ∧
    (processRun planA subA [10]).nextPaymentDue
      ≠ subA.startTime + 1 * planA.interval := by
  decide

theorem C8_witness :
    (processRun planA subA [10, 20]).nextPaymentDue
      = subA.startTime + (([10, 20] : List Nat).length + 1) * planA.interval :=
  C8_schedule_no_drift planA subA [10, 20] (by decide) (by decide)

/-- C9: for a plan whose payment token is not the native designator,
`subscribe` demands no payment (any `msg.value`, including zero, is
accepted) and transfers no value, yet on success it records the new
subscription's `totalPaid` as the full plan amount. -/
theorem C9_erc20_branch_no_payment
    (sender value now planId : Nat) (autoRenew : Bool) (st : SMState)
    (htok : (st.plans planId).token ≠ 0)
    (hact : (st.plans planId).active = true)
    (hnew : (st.subscriptions planId sender).subscriber = 0) :
    ∃ st', subscribe sender value now planId autoRenew st = .ok st' ∧
      st'.transfers = st.transfers ∧
      (getSubscription st' planId sender).totalPaid
        = (st.plans planId).amount := by
  simp only [subscribe]
  rw [if_neg (not_not_intro hact), if_neg (not_not_intro hnew),
    if_neg (fun hc => htok hc.1)]
  refine ⟨_, rfl, ?_, ?_⟩
  · simp [htok]
  · simp [getSubscription]

theorem C9_witness :
    ∃ st', subscribe 7 0 100 42 true stErc = .ok st' ∧
      st'.transfers = stErc.transfers ∧
      (getSubscription st' 42 7).totalPaid = (stErc.plans 42).amount :=
  C9_erc20_branch_no_payment 7 0 100 42 true stErc (by decide) rfl rfl

theorem subscriber_ne_zero_apply (k : List Nat → Nat) (st : SMState)
    (q b : Nat) (h : (st.subscriptions q b).subscriber ≠ 0) (op : SMOp) :
    ((SMOp.apply k st op).subscriptions q b).subscriber ≠ 0 := by
  cases op with
  | createPlan sender now token amount interval duration gracePeriod apiUrl =>
      simp only [SMOp.apply]
      cases hc : createPlan k sender now token amount interval duration
          gracePeriod apiUrl st with
      | error e => exact h
      | ok pst =>
          obtain ⟨pid, st'⟩ := pst
          change (st'.subscriptions q b).subscriber ≠ 0
          obtain ⟨_, _, _, hsubs, _⟩ :=
            createPlan_ok_parts k sender now token amount interval duration
              gracePeriod apiUrl st pid st' hc
          rw [hsubs]
          exact h
  | subscribe sender value now planId autoRenew =>
      simp only [SMOp.apply]
      cases hc : subscribe sender value now planId autoRenew st with
      | error e => exact h
      | ok st' =>
          change (st'.subscriptions q b).subscriber ≠ 0
          obtain ⟨hdup, _, _, hsubs⟩ :=
            subscribe_ok_parts sender value now planId autoRenew st st' hc
          rw [hsubs q b]
          by_cases hkey : q = planId ∧ b = sender
          · obtain ⟨rfl, rfl⟩ := hkey
            exact absurd hdup h
          · rw [if_neg hkey]
            exact h

theorem subscriber_ne_zero_run (k : List Nat → Nat) (st : SMState)
    (q b : Nat) (h : (st.subscriptions q b).subscriber ≠ 0) (ops : List SMOp) :
    (((runSM k st ops).subscriptions q b)).subscriber ≠ 0 := by
  induction ops generalizing st with
  | nil => exact h
  | cons op ops ih =>
      exact ih (SMOp.apply k st op) (subscriber_ne_zero_apply k st q b h op)

/-- C10: once `subscribe` has succeeded for `(planId, sender)` with a
nonzero sender, the stored subscriber field is nonzero and no operation
ever clears it, so every later `subscribe` for that pair fails — whatever
the stored subscription's active flag and whatever operations happen in
between. -/
theorem C10_subscription_slot_permanent
    (k : List Nat → Nat) (sender value now planId : Nat) (autoRenew : Bool)
    (st0 st1 : SMState) (hsender : sender ≠ 0)
    (hfirst : subscribe sender value now planId autoRenew st0 = .ok st1)
    (ops : List SMOp) (value2 now2 : Nat) (autoRenew2 : Bool) :
    (((runSM k st1 ops).subscriptions planId sender).subscriber ≠ 0) ∧
    exceptOk (subscribe sender value2 now2 planId autoRenew2
      (runSM k st1 ops)) = false := by
  have h1 : (st1.subscriptions planId sender).subscriber ≠ 0 := by
    rw [(subscribe_ok_parts sender value now planId autoRenew st0 st1
      hfirst).2.2.2 planId sender, if_pos ⟨rfl, rfl⟩]
    exact hsender
  have h2 := subscriber_ne_zero_run k st1 planId sender h1 ops
  refine ⟨h2, ?_⟩
  simp only [subscribe]
  by_cases hact : ((runSM k st1 ops).plans planId).active = true
  · rw [if_neg (not_not_intro hact), if_pos h2]
    rfl
  · rw [if_pos hact]
    rfl

theorem C10_witness :
    (((runSM kZero stSub1 [.createPlan 1 2 0 5 10 100 3 "u"]).subscriptions
      42 7).subscriber ≠ 0) ∧
    exceptOk (subscribe 7 5 200 42 false
      (runSM kZero stSub1 [.createPlan 1 2 0 5 10 100 3 "u"])) = false :=
  C10_subscription_slot_permanent kZero 7 5 100 42 true stNat stSub1
    (by decide) rfl [.createPlan 1 2 0 5 10 100 3 "u"] 5 200 false

end X402
